import Mathlib

/-!
# A bounded thread pool over a circular task queue (`pthread_pool.c`)

Shallow embedding of `src/pthread_pool.c`.

* The pool structure `pthread_pool_t` carries the control state, the circular
  buffer `q` with `q_size`, `q_front`, `q_len`, and `bee_size`.  The mutex and
  the two condition variables are not fields of the model: a critical section
  (everything between `pthread_mutex_lock` and the matching unlock or
  `pthread_cond_wait`) is one atomic step.
* A worker thread is a control-flow automaton (`WorkerPc`, `worker_step`) whose
  control points are the places of `worker` where the thread can be observed
  from outside a critical section.
* Calling a task (`current_task.function(current_task.param)`) is recorded by
  appending the task to an execution log; tasks are taken to return and not to
  touch the pool themselves.
* Sizes and indices are natural numbers.  `pthread_pool_init` rejects sizes above
  `POOL_MAXBSIZE` / `POOL_MAXQSIZE`, and `q_front < q_size`, `q_len ≤ q_size` are
  invariants, so the only sum formed, `q_front + q_len`, stays below twice the
  larger maximum; the header that fixes the maxima and the field types is
  absent, and the maxima are taken to leave that much room in the field type.
* Code outside a critical section is followed access by access: the loop test
  of `worker` (line 37) and the prologue of `pthread_pool_submit` (lines
  128-133) read and write the state without the mutex, so every such read and
  write is a step of its own that other threads can come between.
* The header `pthread_pool.h` is absent.  Its control states and return codes
  are enumerations here, its numeric macros are the fields of `Header`.
-/

namespace PthreadPool

/-! ## Data model -/

/-- Modelled from the spec: the header `pthread_pool.h` is absent; the four
control states named in the source (`STANDBY`, `ON`, `EXIT`, `OFF`) are the four
distinct states STANDBY, RUNNING, DRAINING, STOPPED of the specification. -/
inductive State
  | STANDBY
  | ON
  | EXIT
  | OFF
  deriving DecidableEq

/-- Modelled from the spec: the header `pthread_pool.h` is absent; the three
return codes used by the source are the three distinct outcomes success,
rejected/failure and queue-full of the specification. -/
inductive Ret
  | POOL_SUCCESS
  | POOL_FAIL
  | POOL_FULL
  deriving DecidableEq

/-- Modelled from the spec: the numeric macros of the absent header
`pthread_pool.h`.  Their values are not known, so they are parameters: the two
size maxima, the two submit flags and the two shutdown modes. -/
structure Header where
  POOL_MAXBSIZE : Nat
  POOL_MAXQSIZE : Nat
  POOL_WAIT : Int
  POOL_NOWAIT : Int
  POOL_DISCARD : Int
  POOL_COMPLETE : Int

/-- A task: a function pointer and its argument, both opaque addresses. -/
structure task_t where
  function : Nat
  param : Nat
  deriving DecidableEq

/-- The pool structure.  `q` is the heap block of `q_size` task slots; a slot
that was never written (fresh from `malloc`) is `none`. -/
structure pthread_pool_t where
  state : State
  q : List (Option task_t)
  q_size : Nat
  q_front : Nat
  q_len : Nat
  bee_size : Nat
  deriving DecidableEq

/-- Read of `pool->q[i]`. -/
def slot (q : List (Option task_t)) (i : Nat) : Option task_t :=
  (q[i]?).getD none

/-- `pthread_pool_update_state`: write the control state (under the lock). -/
def pthread_pool_update_state (pool : pthread_pool_t) (state : State) : pthread_pool_t :=
  { pool with state := state }

/-! ## The circular buffer -/

/-- Lines 166-169 of `pthread_pool_submit`: store the task at the back of the
circular buffer and count it. -/
def enqueue (pool : pthread_pool_t) (f p : Nat) : pthread_pool_t :=
  let pos := (pool.q_front + pool.q_len) % pool.q_size
  { pool with q := pool.q.set pos (some ⟨f, p⟩), q_len := pool.q_len + 1 }

/-- Lines 52-54 of `worker`: take the task at the front of the circular buffer. -/
def dequeue (pool : pthread_pool_t) : Option task_t × pthread_pool_t :=
  (slot pool.q pool.q_front,
   { pool with q_front := (pool.q_front + 1) % pool.q_size, q_len := pool.q_len - 1 })

/-! ## Worker threads -/

/-- Control points of a thread running `worker`. -/
inductive WorkerPc
  /-- About to evaluate the outer loop condition `pool->state != OFF` (line 37). -/
  | at_while
  /-- About to take the mutex and evaluate `pool->q_len == 0` (lines 38-40). -/
  | at_lock
  /-- Blocked in `pthread_cond_wait(&pool->full, ..)` (line 47). -/
  | in_wait
  /-- Running the dequeued task outside the lock (line 65). -/
  | run_task (t : Option task_t)
  /-- After `pthread_exit`. -/
  | exited
  deriving DecidableEq

/-- One step of a worker thread on the shared pool and the execution log. -/
def worker_step (pool : pthread_pool_t) (log : List (Option task_t)) :
    WorkerPc → pthread_pool_t × List (Option task_t) × WorkerPc
  | .at_while =>
      if pool.state ≠ .OFF then (pool, log, .at_lock) else (pool, log, .exited)
  | .at_lock =>
      if pool.q_len = 0 then
        if pool.state = .OFF ∨ pool.state = .EXIT then (pool, log, .exited)
        else (pool, log, .in_wait)
      else
        ((dequeue pool).2, log, .run_task (dequeue pool).1)
  | .in_wait => (pool, log, .in_wait)
  | .run_task t => (pool, log ++ [t], .at_while)
  | .exited => (pool, log, .exited)

/-- Return from `pthread_cond_wait` (signal, broadcast or spurious wake-up): the
thread holds the mutex again and re-evaluates the loop condition of line 40. -/
def wake : WorkerPc → WorkerPc
  | .in_wait => .at_lock
  | pc => pc

/-- A worker running without interference until `pthread_exit`; `none` when it
has not exited within `fuel` steps (a worker blocked in `pthread_cond_wait`
never does). -/
def worker_run : Nat → pthread_pool_t → List (Option task_t) → WorkerPc →
    Option (pthread_pool_t × List (Option task_t))
  | 0, pool, log, pc => if pc = .exited then some (pool, log) else none
  | fuel + 1, pool, log, pc =>
      if pc = .exited then some (pool, log)
      else worker_run fuel (worker_step pool log pc).1 (worker_step pool log pc).2.1
        (worker_step pool log pc).2.2

/-- Number of steps a worker at this control point needs, on top of three per
queued task, to reach `pthread_exit` once the pool is shutting down. -/
def weight : WorkerPc → Nat
  | .at_while => 2
  | .at_lock => 1
  | .in_wait => 0
  | .run_task _ => 3
  | .exited => 0

/-- The task a worker at this control point is executing, if any. -/
def pending : WorkerPc → List (Option task_t)
  | .run_task t => [t]
  | _ => []

/-! ## Submit -/

/-- Outcome of a call of `pthread_pool_submit` followed up to its return or to
its first `pthread_cond_wait`. -/
inductive SubmitResult
  | returned (r : Ret)
  | blocked
  deriving DecidableEq

/-- The waiting loop of `pthread_pool_submit` from line 154 on, with the mutex
held: entered by the call itself and re-entered whenever the caller returns from
`pthread_cond_wait`. -/
def submit_wait_loop (pool : pthread_pool_t) (f p : Nat) : SubmitResult × pthread_pool_t :=
  if pool.q_size = pool.q_len then
    if pool.state = .OFF ∨ pool.state = .EXIT then (.returned .POOL_FAIL, pool)
    else (.blocked, pool)
  else (.returned .POOL_SUCCESS, enqueue pool f p)

/-- Lines 132-133 of `pthread_pool_submit`: a pool in `STANDBY` is switched to `ON`. -/
def standby_to_on (pool : pthread_pool_t) : pthread_pool_t :=
  if pool.state = .STANDBY then { pool with state := .ON } else pool

/-- `pthread_pool_submit` as one call run on its own, up to its return or its
first `pthread_cond_wait`, with no other thread moving while it runs.  The
steps of a call among other threads are those of `submit_step`. -/
def pthread_pool_submit (h : Header) (pool : pthread_pool_t) (f p : Nat) (flag : Int) :
    SubmitResult × pthread_pool_t :=
  if pool.state = .EXIT ∨ pool.state = .OFF then (.returned .POOL_FAIL, pool)
  else if flag = h.POOL_NOWAIT ∧ (standby_to_on pool).q_size = (standby_to_on pool).q_len then
    (.returned .POOL_FULL, standby_to_on pool)
  else submit_wait_loop (standby_to_on pool) f p

/-- Consecutive calls of `pthread_pool_submit` with the same flag, one per task
of the list, with nothing else happening in between; the outcomes in order and
the pool after the last call. -/
def submit_all (h : Header) (flag : Int) :
    pthread_pool_t → List task_t → List SubmitResult × pthread_pool_t
  | pool, [] => ([], pool)
  | pool, t :: ts =>
      ((pthread_pool_submit h pool t.function t.param flag).1 ::
          (submit_all h flag (pthread_pool_submit h pool t.function t.param flag).2 ts).1,
        (submit_all h flag (pthread_pool_submit h pool t.function t.param flag).2 ts).2)

/-! ## Threads inside `pthread_pool_submit` -/

/-- Control points of a thread inside `pthread_pool_submit`.  Lines 128-133 run
without the mutex, so each read of the state and the write are steps of their
own; everything from the lock of line 135 to the return or the wait is one
critical section. -/
inductive SubmitPc
  /-- About to read the state for `pool->state == EXIT` (line 128). -/
  | at_test_exit
  /-- About to read the state for `pool->state == OFF` (line 128). -/
  | at_test_off
  /-- About to read the state for `pool->state == STANDBY` (line 132). -/
  | at_test_standby
  /-- About to store `pool->state = ON` (line 133). -/
  | at_store_on
  /-- About to take the mutex and run lines 143-178 (line 135). -/
  | at_mutex
  /-- Blocked in `pthread_cond_wait(&pool->empty, ..)` (line 160). -/
  | in_wait
  /-- Back from the wait with the mutex held, about to re-test line 154. -/
  | at_loop
  /-- The call has returned. -/
  | returned (r : Ret)
  deriving DecidableEq

/-- A thread inside `pthread_pool_submit`: its arguments and its control point. -/
structure Submitter where
  task : task_t
  flag : Int
  pc : SubmitPc
  deriving DecidableEq

/-- Where a call stands after the waiting loop of line 154. -/
def pc_of_result : SubmitResult → SubmitPc
  | .blocked => .in_wait
  | .returned r => .returned r

/-- One step of a thread inside `pthread_pool_submit`. -/
def submit_step (h : Header) (pool : pthread_pool_t) (sb : Submitter) :
    pthread_pool_t × Submitter :=
  match sb.pc with
  | .at_test_exit =>
      if pool.state = .EXIT then (pool, { sb with pc := .returned .POOL_FAIL })
      else (pool, { sb with pc := .at_test_off })
  | .at_test_off =>
      if pool.state = .OFF then (pool, { sb with pc := .returned .POOL_FAIL })
      else (pool, { sb with pc := .at_test_standby })
  | .at_test_standby =>
      if pool.state = .STANDBY then (pool, { sb with pc := .at_store_on })
      else (pool, { sb with pc := .at_mutex })
  | .at_store_on => ({ pool with state := .ON }, { sb with pc := .at_mutex })
  | .at_mutex =>
      if sb.flag = h.POOL_NOWAIT ∧ pool.q_size = pool.q_len then
        (pool, { sb with pc := .returned .POOL_FULL })
      else
        ((submit_wait_loop pool sb.task.function sb.task.param).2,
          { sb with pc := pc_of_result (submit_wait_loop pool sb.task.function sb.task.param).1 })
  | .at_loop =>
      ((submit_wait_loop pool sb.task.function sb.task.param).2,
        { sb with pc := pc_of_result (submit_wait_loop pool sb.task.function sb.task.param).1 })
  | .in_wait => (pool, sb)
  | .returned _ => (pool, sb)

/-- Return of a submitter from `pthread_cond_wait` (line 160). -/
def wake_sub (sb : Submitter) : Submitter :=
  match sb.pc with
  | .in_wait => { sb with pc := .at_loop }
  | _ => sb

/-- A thread inside `pthread_pool_submit` taking `n` steps with no other thread
moving in between. -/
def submit_steps (h : Header) : Nat → pthread_pool_t → Submitter → pthread_pool_t × Submitter
  | 0, pool, sb => (pool, sb)
  | n + 1, pool, sb => submit_steps h n (submit_step h pool sb).1 (submit_step h pool sb).2

/-! ## The pool with its threads -/

/-- The pool together with its worker threads (`pool->bee`), the threads that
have entered `pthread_pool_submit` and the log of executed tasks. -/
structure System where
  pool : pthread_pool_t
  bees : List WorkerPc
  subs : List Submitter
  log : List (Option task_t)
  deriving DecidableEq

/-- The thread-creation loop of `pthread_pool_init` (lines 112-114):
`create_ok i` tells whether the `i`-th `pthread_create` succeeds. -/
def create_bees (create_ok : Nat → Bool) : Nat → Nat → List WorkerPc → Ret × List WorkerPc
  | 0, _, bees => (.POOL_SUCCESS, bees)
  | n + 1, i, bees =>
      if create_ok i then create_bees create_ok n (i + 1) (bees ++ [.at_while])
      else (.POOL_FAIL, bees)

/-- `pthread_pool_init` on the caller's pool structure; the result is the return
code and the pool with the threads it has spawned. -/
def pthread_pool_init (h : Header) (create_ok : Nat → Bool) (pool : pthread_pool_t)
    (bee_size queue_size : Nat) : Ret × System :=
  if bee_size > h.POOL_MAXBSIZE ∨ queue_size > h.POOL_MAXQSIZE then
    (.POOL_FAIL, ⟨pool, [], [], []⟩)
  else
    let q_size := if queue_size < bee_size then bee_size else queue_size
    let pool1 : pthread_pool_t :=
      { state := .STANDBY, q := List.replicate q_size none, q_size := q_size,
        q_front := 0, q_len := 0, bee_size := bee_size }
    ((create_bees create_ok bee_size 0 []).1,
      ⟨pool1, (create_bees create_ok bee_size 0 []).2, [], []⟩)

/-! ## Shutdown -/

/-- Lines 202-204 of `pthread_pool_shutdown`: the state change and the two
broadcasts (every worker blocked on `full` and every caller blocked on `empty`
returns from its wait). -/
def shutdown_begin (h : Header) (s : System) (how : Int) : System :=
  { s with
    pool := pthread_pool_update_state s.pool (if how = h.POOL_DISCARD then .OFF else .EXIT)
    bees := s.bees.map wake
    subs := s.subs.map wake_sub }

/-- `pthread_join(pool->bee[i], NULL)`: worker `i` runs until it has exited.  An
index without a thread makes the call fail and its result is ignored. -/
def pthread_join (fuel : Nat) (s : System) (i : Nat) : Option System :=
  match s.bees[i]? with
  | none => some s
  | some pc =>
      match worker_run fuel s.pool s.log pc with
      | none => none
      | some r => some { s with pool := r.1, log := r.2, bees := s.bees.set i .exited }

/-- The join loop of `pthread_pool_shutdown` (lines 207-209). -/
def join_all (fuel : Nat) : Nat → Nat → System → Option System
  | 0, _, s => some s
  | n + 1, i, s =>
      match pthread_join fuel s i with
      | none => none
      | some s1 => join_all fuel n (i + 1) s1

/-- `pthread_pool_shutdown`; `none` when some join has not completed within
`fuel` worker steps.  Releasing the two heap blocks changes no field. -/
def pthread_pool_shutdown (h : Header) (fuel : Nat) (s : System) (how : Int) :
    Option (Ret × System) :=
  if how ≠ h.POOL_DISCARD ∧ how ≠ h.POOL_COMPLETE then some (.POOL_FAIL, s)
  else
    match join_all fuel s.pool.bee_size 0 (shutdown_begin h s how) with
    | none => none
    | some s1 => some (.POOL_SUCCESS, s1)

/-! ## Interleavings -/

/-- The steps by which the threads of a program move the pool. -/
inductive Action
  /-- A thread enters `pthread_pool_submit` with these arguments. -/
  | call (f p : Nat) (flag : Int)
  /-- The `i`-th thread inside `pthread_pool_submit` takes one step. -/
  | sub (i : Nat)
  /-- The `i`-th thread inside `pthread_pool_submit` returns from
  `pthread_cond_wait` (line 160). -/
  | resume (i : Nat)
  /-- Worker `i` takes one step. -/
  | bee (i : Nat)
  /-- Worker `i` returns from `pthread_cond_wait` (line 47). -/
  | wake (i : Nat)
  /-- The state change of `pthread_pool_shutdown` (lines 193-204). -/
  | shutdown (how : Int)

/-- Effect of one action on the system. -/
def step (h : Header) (s : System) : Action → System
  | .call f p flag => { s with subs := s.subs ++ [⟨⟨f, p⟩, flag, .at_test_exit⟩] }
  | .sub i =>
      match s.subs[i]? with
      | none => s
      | some sb =>
          { s with pool := (submit_step h s.pool sb).1,
                   subs := s.subs.set i (submit_step h s.pool sb).2 }
  | .resume i =>
      match s.subs[i]? with
      | none => s
      | some sb => { s with subs := s.subs.set i (wake_sub sb) }
  | .bee i =>
      match s.bees[i]? with
      | none => s
      | some pc =>
          { s with pool := (worker_step s.pool s.log pc).1, log := (worker_step s.pool s.log pc).2.1,
                   bees := s.bees.set i (worker_step s.pool s.log pc).2.2 }
  | .wake i =>
      match s.bees[i]? with
      | none => s
      | some pc => { s with bees := s.bees.set i (wake pc) }
  | .shutdown how =>
      if how ≠ h.POOL_DISCARD ∧ how ≠ h.POOL_COMPLETE then s else shutdown_begin h s how

/-- Whether the action is the unlocked store `pool->state = ON` of line 133. -/
def is_store_on (s : System) : Action → Bool
  | .sub i =>
      match s.subs[i]? with
      | none => false
      | some sb => decide (sb.pc = .at_store_on)
  | _ => false

/-- Run a sequence of actions. -/
def run (h : Header) (s : System) (acts : List Action) : System :=
  acts.foldl (step h) s

/-! ## Queue operations in isolation -/

/-- A guarded queue operation: the enqueue of `pthread_pool_submit` or the
dequeue of `worker`. -/
inductive QOp
  | enq (f p : Nat)
  | deq

/-- Run queue operations, each under its guard (`q_len < q_size` for the
enqueue, `q_len > 0` for the dequeue); the result carries the dequeued tasks in
order.  `none` when an operation is attempted against its guard. -/
def run_ops : pthread_pool_t → List QOp → Option (pthread_pool_t × List (Option task_t))
  | pool, [] => some (pool, [])
  | pool, .enq f p :: ops =>
      if pool.q_len < pool.q_size then run_ops (enqueue pool f p) ops else none
  | pool, .deq :: ops =>
      if 0 < pool.q_len then
        match run_ops (dequeue pool).2 ops with
        | none => none
        | some r => some (r.1, (dequeue pool).1 :: r.2)
      else none

/-- The tasks enqueued by a sequence of queue operations, in order. -/
def enqueued : List QOp → List task_t
  | [] => []
  | .enq f p :: ops => ⟨f, p⟩ :: enqueued ops
  | .deq :: ops => enqueued ops

/-- The queued tasks, front first: the `q_len` slots starting at `q_front`,
indices taken modulo `q_size`. -/
def contents (pool : pthread_pool_t) : List (Option task_t) :=
  (List.range pool.q_len).map (fun i => slot pool.q ((pool.q_front + i) % pool.q_size))

/-- Representation invariant of the circular buffer. -/
def Inv (pool : pthread_pool_t) : Prop :=
  pool.q.length = pool.q_size ∧ pool.q_len ≤ pool.q_size ∧
    (0 < pool.q_size → pool.q_front < pool.q_size)

/-- Concrete header values used in the examples. -/
def hdr : Header :=
  { POOL_MAXBSIZE := 128, POOL_MAXQSIZE := 1024, POOL_WAIT := 0, POOL_NOWAIT := 1,
    POOL_DISCARD := 0, POOL_COMPLETE := 1 }

/-- An arbitrary pool structure as the caller holds it before `pthread_pool_init`. -/
def pool_junk : pthread_pool_t :=
  { state := .OFF, q := [], q_size := 7, q_front := 5, q_len := 3, bee_size := 9 }

/-- A schedule on a pool with one worker and capacity two in which the circular
buffer wraps around: two submits fill the queue, the worker runs the first task,
a third submit lands in slot 0 again, a fourth is refused, and the worker goes
on. -/
def acts_wrap : List Action :=
  [.call 10 1 1] ++ List.replicate 5 (.sub 0) ++ [.call 20 2 1] ++ List.replicate 4 (.sub 1) ++
    List.replicate 3 (.bee 0) ++ [.call 30 3 1] ++ List.replicate 4 (.sub 2) ++
    [.call 40 4 1] ++ List.replicate 4 (.sub 3) ++ List.replicate 5 (.bee 0)

/-- A schedule on a fresh pool in which a graceful shutdown falls between the
test of line 132 and the store of line 133 of a first submit. -/
def acts_race : List Action :=
  [.call 7 7 0, .sub 0, .sub 0, .sub 0, .shutdown 1]

/-- A pool with one worker and capacity two, freshly created. -/
def sys_boot : System :=
  (pthread_pool_init hdr (fun _ => true) pool_junk 1 2).2

/-- A stopped pool (state `OFF`) with two tasks still queued, the front at slot 1. -/
def pool_off_queued : pthread_pool_t :=
  { state := .OFF, q := [some ⟨20, 2⟩, some ⟨10, 1⟩], q_size := 2, q_front := 1, q_len := 2,
    bee_size := 1 }

/-- A draining pool (state `EXIT`) with two tasks queued, the front at slot 1. -/
def pool_exit_queued : pthread_pool_t :=
  { state := .EXIT, q := [some ⟨20, 2⟩, some ⟨10, 1⟩], q_size := 2, q_front := 1, q_len := 2,
    bee_size := 1 }

/-- A running pool (state `ON`) whose queue of capacity two is full. -/
def pool_on_full : pthread_pool_t :=
  { state := .ON, q := [some ⟨20, 2⟩, some ⟨10, 1⟩], q_size := 2, q_front := 1, q_len := 2,
    bee_size := 1 }

/-- A pool in `STANDBY` with an empty queue of capacity two. -/
def pool_standby_empty : pthread_pool_t :=
  { state := .STANDBY, q := [none, none], q_size := 2, q_front := 0, q_len := 0, bee_size := 1 }

/-- A running system: two tasks queued, one worker executing a third task and one
worker blocked in `pthread_cond_wait`. -/
def sys_busy : System :=
  { pool := { state := .ON, q := [some ⟨20, 2⟩, some ⟨10, 1⟩], q_size := 2, q_front := 1,
              q_len := 2, bee_size := 2 },
    bees := [.run_task (some ⟨5, 0⟩), .in_wait], subs := [], log := [] }

/-- The system `sys_boot` after a completed `pthread_pool_shutdown(POOL_COMPLETE)`. -/
def sys_drained : System :=
  { pool := { state := .EXIT, q := [none, none], q_size := 2, q_front := 0, q_len := 0,
              bee_size := 1 },
    bees := [.exited], subs := [], log := [] }

/-- A fresh pool on which a graceful shutdown has begun (its worker not yet
joined) and a thread has then entered `pthread_pool_submit`. -/
def sys_late_call : System :=
  { pool := { state := .EXIT, q := [none, none], q_size := 2, q_front := 0, q_len := 0,
              bee_size := 1 },
    bees := [.at_while], subs := [⟨⟨7, 7⟩, 0, .at_test_exit⟩], log := [] }

/-- Queue operations on a buffer of capacity two that wrap around: the third
task is stored in slot 0 again. -/
def ops_wrap : List QOp :=
  [.enq 10 1, .enq 20 2, .deq, .enq 30 3, .deq, .deq]

/-- The pool of `sys_boot` after `ops_wrap`. -/
def pool_after_wrap : pthread_pool_t :=
  { state := .STANDBY, q := [some ⟨30, 3⟩, some ⟨20, 2⟩], q_size := 2, q_front := 1, q_len := 0,
    bee_size := 1 }

/-! ## The circular buffer is a FIFO queue -/

theorem slot_set_eq (q : List (Option task_t)) (i : Nat) (v : Option task_t) (hi : i < q.length) :
    slot (q.set i v) i = v := by
  simp [slot, List.getElem?_set, hi]

theorem slot_set_ne (q : List (Option task_t)) (i j : Nat) (v : Option task_t) (hij : i ≠ j) :
    slot (q.set i v) j = slot q j := by
  simp [slot, List.getElem?_set, hij]

theorem mod_wrap (a c : Nat) (h1 : a < 2 * c) : a % c = if a < c then a else a - c := by
  split
  · exact Nat.mod_eq_of_lt (by assumption)
  · rw [Nat.mod_eq_sub_mod (by omega)]
    exact Nat.mod_eq_of_lt (by omega)

theorem back_ne (front i n c : Nat) (hf : front < c) (hin : i < n) (hn : n < c) :
    (front + n) % c ≠ (front + i) % c := by
  rw [mod_wrap (front + n) c (by omega), mod_wrap (front + i) c (by omega)]
  split <;> split <;> omega

theorem contents_enqueue (pool : pthread_pool_t) (f p : Nat) (hI : Inv pool)
    (hlt : pool.q_len < pool.q_size) :
    contents (enqueue pool f p) = contents pool ++ [some ⟨f, p⟩] := by
  obtain ⟨hq, _, hfr⟩ := hI
  have hpos : 0 < pool.q_size := by omega
  have hf := hfr hpos
  simp only [contents, enqueue, List.range_succ, List.map_append, List.map_cons, List.map_nil]
  congr 1
  · apply List.map_congr_left
    intro i hi
    rw [List.mem_range] at hi
    exact slot_set_ne _ _ _ _ (back_ne _ _ _ _ hf hi hlt)
  · rw [slot_set_eq]
    rw [hq]
    exact Nat.mod_lt _ hpos

theorem inv_enqueue (pool : pthread_pool_t) (f p : Nat) (hI : Inv pool)
    (hlt : pool.q_len < pool.q_size) : Inv (enqueue pool f p) := by
  obtain ⟨hq, _, hfr⟩ := hI
  refine ⟨?_, ?_, ?_⟩
  · simpa [enqueue] using hq
  · simp only [enqueue]; omega
  · simpa [enqueue] using hfr

theorem contents_dequeue (pool : pthread_pool_t) (hI : Inv pool) (hpos : 0 < pool.q_len) :
    contents pool = (dequeue pool).1 :: contents (dequeue pool).2 := by
  obtain ⟨_, hle, hfr⟩ := hI
  have hf := hfr (by omega)
  obtain ⟨n, hn⟩ : ∃ n, pool.q_len = n + 1 := ⟨pool.q_len - 1, by omega⟩
  simp only [contents, dequeue, hn, List.range_succ_eq_map, List.map_cons, List.map_map,
    Nat.add_zero, Nat.mod_eq_of_lt hf, Nat.add_sub_cancel]
  congr 1
  apply List.map_congr_left
  intro i _
  simp only [Function.comp, Nat.mod_add_mod]
  congr 2
  omega

theorem inv_dequeue (pool : pthread_pool_t) (hI : Inv pool) (hpos : 0 < pool.q_len) :
    Inv (dequeue pool).2 := by
  obtain ⟨hq, hle, _⟩ := hI
  refine ⟨?_, ?_, ?_⟩
  · simpa [dequeue] using hq
  · simp only [dequeue]; omega
  · intro h
    simp only [dequeue] at h ⊢
    exact Nat.mod_lt _ h

theorem run_ops_fifo (ops : List QOp) :
    ∀ (pool pool1 : pthread_pool_t) (outs : List (Option task_t)), Inv pool →
      run_ops pool ops = some (pool1, outs) →
      Inv pool1 ∧ contents pool ++ (enqueued ops).map some = outs ++ contents pool1 := by
  induction ops with
  | nil =>
      intro pool pool1 outs hI hr
      simp only [run_ops, Option.some.injEq, Prod.mk.injEq] at hr
      obtain ⟨rfl, rfl⟩ := hr
      exact ⟨hI, by simp [enqueued]⟩
  | cons op ops ih =>
      intro pool pool1 outs hI hr
      cases op with
      | enq f p =>
          simp only [run_ops] at hr
          split at hr
          · rename_i hlt
            obtain ⟨hI1, hc⟩ := ih _ _ _ (inv_enqueue pool f p hI hlt) hr
            refine ⟨hI1, ?_⟩
            rw [contents_enqueue pool f p hI hlt] at hc
            simpa [enqueued] using hc
          · exact absurd hr (by simp)
      | deq =>
          simp only [run_ops] at hr
          split at hr
          · rename_i hpos
            split at hr
            · exact absurd hr (by simp)
            · rename_i r hrr
              simp only [Option.some.injEq, Prod.mk.injEq] at hr
              obtain ⟨rfl, rfl⟩ := hr
              obtain ⟨hI1, hc⟩ := ih _ _ _ (inv_dequeue pool hI hpos) hrr
              refine ⟨hI1, ?_⟩
              rw [contents_dequeue pool hI hpos]
              simpa [enqueued] using hc
          · exact absurd hr (by simp)

theorem init_pool_eq (h : Header) (create_ok : Nat → Bool) (pool : pthread_pool_t)
    (W Q : Nat) (hW : W ≤ h.POOL_MAXBSIZE) (hQ : Q ≤ h.POOL_MAXQSIZE) :
    (pthread_pool_init h create_ok pool W Q).2.pool =
      { state := .STANDBY, q := List.replicate (max Q W) none, q_size := max Q W,
        q_front := 0, q_len := 0, bee_size := W } := by
  have hmax : (if Q < W then W else Q) = max Q W := by
    split
    · rw [Nat.max_eq_right (by omega)]
    · rw [Nat.max_eq_left (by omega)]
  simp only [pthread_pool_init, if_neg (show ¬ (W > h.POOL_MAXBSIZE ∨ Q > h.POOL_MAXQSIZE) by omega),
    hmax]

theorem init_success_bounds (h : Header) (create_ok : Nat → Bool) (pool : pthread_pool_t)
    (W Q : Nat) (hs : (pthread_pool_init h create_ok pool W Q).1 = .POOL_SUCCESS) :
    W ≤ h.POOL_MAXBSIZE ∧ Q ≤ h.POOL_MAXQSIZE := by
  by_contra hc
  have : W > h.POOL_MAXBSIZE ∨ Q > h.POOL_MAXQSIZE := by omega
  simp [pthread_pool_init, this] at hs

theorem init_inv (h : Header) (create_ok : Nat → Bool) (pool : pthread_pool_t)
    (W Q : Nat) (hW : W ≤ h.POOL_MAXBSIZE) (hQ : Q ≤ h.POOL_MAXQSIZE) :
    Inv (pthread_pool_init h create_ok pool W Q).2.pool := by
  rw [init_pool_eq h create_ok pool W Q hW hQ]
  exact ⟨by simp, by simp, fun hp => hp⟩

theorem init_contents (h : Header) (create_ok : Nat → Bool) (pool : pthread_pool_t)
    (W Q : Nat) (hW : W ≤ h.POOL_MAXBSIZE) (hQ : Q ≤ h.POOL_MAXQSIZE) :
    contents (pthread_pool_init h create_ok pool W Q).2.pool = [] := by
  rw [init_pool_eq h create_ok pool W Q hW hQ]
  simp [contents]

/-- C1 (FIFO order): starting from the empty queue of a successfully created
pool (of any capacity, in particular every capacity of at least one), run any
sequence of guarded enqueues and dequeues.  Then the dequeued tasks are, in order, exactly the first enqueued
tasks (the `k`-th dequeue returns the task of the `k`-th enqueue), and what is
left in the circular buffer is the remaining enqueued tasks in order. -/
theorem fifo_order (h : Header) (create_ok : Nat → Bool) (pool0 : pthread_pool_t)
    (W Q : Nat) (ops : List QOp) (pool1 : pthread_pool_t) (outs : List (Option task_t))
    (hs : (pthread_pool_init h create_ok pool0 W Q).1 = .POOL_SUCCESS)
    (hr : run_ops (pthread_pool_init h create_ok pool0 W Q).2.pool ops = some (pool1, outs)) :
    outs.length ≤ (enqueued ops).length ∧
    (∀ k, k < outs.length → outs[k]? = ((enqueued ops)[k]?).map some) ∧
    outs = ((enqueued ops).take outs.length).map some ∧
    contents pool1 = ((enqueued ops).drop outs.length).map some := by
  obtain ⟨hW, hQ⟩ := init_success_bounds h create_ok pool0 W Q hs
  obtain ⟨_, hc⟩ := run_ops_fifo ops _ pool1 outs (init_inv h create_ok pool0 W Q hW hQ) hr
  rw [init_contents h create_ok pool0 W Q hW hQ, List.nil_append] at hc
  have hlen : outs.length ≤ (enqueued ops).length := by
    have := congrArg List.length hc
    simp only [List.length_map, List.length_append] at this
    omega
  have htake : outs = ((enqueued ops).take outs.length).map some := by
    have := congrArg (List.take outs.length) hc
    rw [List.take_left', ← List.map_take] at this
    · exact this.symm
    · rfl
  have hdrop : contents pool1 = ((enqueued ops).drop outs.length).map some := by
    have := congrArg (List.drop outs.length) hc
    rw [List.drop_left', ← List.map_drop] at this
    · exact this.symm
    · rfl
  refine ⟨hlen, ?_, htake, hdrop⟩
  intro k hk
  rw [← List.getElem?_map, hc, List.getElem?_append_left hk]

/-! ## Invariant preservation -/

theorem inv_submit_wait_loop (pool : pthread_pool_t) (f p : Nat) (hI : Inv pool) :
    Inv (submit_wait_loop pool f p).2 ∧ (submit_wait_loop pool f p).2.q_size = pool.q_size := by
  unfold submit_wait_loop
  split
  · split <;> exact ⟨hI, rfl⟩
  · rename_i hne
    have hlt : pool.q_len < pool.q_size := by
      have := hI.2.1
      omega
    exact ⟨inv_enqueue pool f p hI hlt, rfl⟩

theorem inv_set_state (pool : pthread_pool_t) (st : State) (hI : Inv pool) :
    Inv { pool with state := st } := hI

theorem inv_standby_to_on (pool : pthread_pool_t) (hI : Inv pool) :
    Inv (standby_to_on pool) ∧ (standby_to_on pool).q_size = pool.q_size := by
  unfold standby_to_on
  split
  · exact ⟨inv_set_state pool .ON hI, rfl⟩
  · exact ⟨hI, rfl⟩

theorem inv_submit (h : Header) (pool : pthread_pool_t) (f p : Nat) (flag : Int) (hI : Inv pool) :
    Inv (pthread_pool_submit h pool f p flag).2 ∧
      (pthread_pool_submit h pool f p flag).2.q_size = pool.q_size := by
  obtain ⟨hI1, hs1⟩ := inv_standby_to_on pool hI
  unfold pthread_pool_submit
  split
  · exact ⟨hI, rfl⟩
  · split
    · exact ⟨hI1, hs1⟩
    · obtain ⟨ha, hb⟩ := inv_submit_wait_loop _ f p hI1
      exact ⟨ha, hb.trans hs1⟩

theorem inv_worker_step (pool : pthread_pool_t) (log : List (Option task_t)) (pc : WorkerPc)
    (hI : Inv pool) :
    Inv (worker_step pool log pc).1 ∧ (worker_step pool log pc).1.q_size = pool.q_size := by
  cases pc with
  | at_while => simp only [worker_step]; split <;> exact ⟨hI, rfl⟩
  | at_lock =>
      simp only [worker_step]
      split
      · split <;> exact ⟨hI, rfl⟩
      · rename_i hne
        exact ⟨inv_dequeue pool hI (Nat.pos_of_ne_zero hne), rfl⟩
  | in_wait => exact ⟨hI, rfl⟩
  | run_task t => exact ⟨hI, rfl⟩
  | exited => exact ⟨hI, rfl⟩

theorem inv_submit_step (h : Header) (pool : pthread_pool_t) (sb : Submitter) (hI : Inv pool) :
    Inv (submit_step h pool sb).1 ∧ (submit_step h pool sb).1.q_size = pool.q_size := by
  unfold submit_step
  split
  · split <;> exact ⟨hI, rfl⟩
  · split <;> exact ⟨hI, rfl⟩
  · split <;> exact ⟨hI, rfl⟩
  · exact ⟨inv_set_state pool .ON hI, rfl⟩
  · split
    · exact ⟨hI, rfl⟩
    · exact inv_submit_wait_loop pool _ _ hI
  · exact inv_submit_wait_loop pool _ _ hI
  · exact ⟨hI, rfl⟩
  · exact ⟨hI, rfl⟩

theorem inv_step (h : Header) (s : System) (a : Action) (hI : Inv s.pool) :
    Inv (step h s a).pool ∧ (step h s a).pool.q_size = s.pool.q_size := by
  cases a with
  | call f p flag => exact ⟨hI, rfl⟩
  | sub i =>
      simp only [step]
      split
      · exact ⟨hI, rfl⟩
      · exact inv_submit_step h s.pool _ hI
  | resume i =>
      simp only [step]
      split <;> exact ⟨hI, rfl⟩
  | bee i =>
      simp only [step]
      split
      · exact ⟨hI, rfl⟩
      · exact inv_worker_step s.pool s.log _ hI
  | wake i =>
      simp only [step]
      split <;> exact ⟨hI, rfl⟩
  | shutdown how =>
      simp only [step]
      split
      · exact ⟨hI, rfl⟩
      · exact ⟨hI, rfl⟩

theorem inv_run (h : Header) (acts : List Action) :
    ∀ s : System, Inv s.pool →
      Inv (run h s acts).pool ∧ (run h s acts).pool.q_size = s.pool.q_size := by
  induction acts with
  | nil => intro s hI; exact ⟨hI, rfl⟩
  | cons a acts ih =>
      intro s hI
      obtain ⟨h1, h2⟩ := inv_step h s a hI
      obtain ⟨h3, h4⟩ := ih (step h s a) h1
      exact ⟨h3, h4.trans h2⟩

/-- C2, as the claim states it, fails: creating a pool with no worker and a
requested capacity of zero succeeds and leaves `q_front = 0 = q_size`, so
`q_front < q_size` does not hold in that (initial, hence reachable) state. -/
theorem capacity_invariant_fails_at_zero :
    (pthread_pool_init hdr (fun _ => true) pool_junk 0 0).1 = .POOL_SUCCESS ∧
    ¬ ((run hdr (pthread_pool_init hdr (fun _ => true) pool_junk 0 0).2 []).pool.q_front <
        (run hdr (pthread_pool_init hdr (fun _ => true) pool_junk 0 0).2 []).pool.q_size) := by
  decide

/-- C2 (capacity invariant, amended): in every state reachable from a successful
`pthread_pool_init` by any interleaving of the steps of submit calls, worker
steps, wake-ups and shutdown state changes, `q_len ≤ q_size` holds, the capacity
is still `max queue_size bee_size`, and `q_front < q_size` holds whenever the
capacity is at least one, that is, unless the pool was created with
`bee_size = 0` and `queue_size = 0`. -/
theorem capacity_invariant (h : Header) (create_ok : Nat → Bool) (pool0 : pthread_pool_t)
    (W Q : Nat) (acts : List Action)
    (hs : (pthread_pool_init h create_ok pool0 W Q).1 = .POOL_SUCCESS) :
    (run h (pthread_pool_init h create_ok pool0 W Q).2 acts).pool.q_len ≤
      (run h (pthread_pool_init h create_ok pool0 W Q).2 acts).pool.q_size ∧
    (run h (pthread_pool_init h create_ok pool0 W Q).2 acts).pool.q_size = max Q W ∧
    (0 < (run h (pthread_pool_init h create_ok pool0 W Q).2 acts).pool.q_size →
      (run h (pthread_pool_init h create_ok pool0 W Q).2 acts).pool.q_front <
        (run h (pthread_pool_init h create_ok pool0 W Q).2 acts).pool.q_size) ∧
    ((0 < W ∨ 0 < Q) →
      (run h (pthread_pool_init h create_ok pool0 W Q).2 acts).pool.q_front <
        (run h (pthread_pool_init h create_ok pool0 W Q).2 acts).pool.q_size) := by
  obtain ⟨hW, hQ⟩ := init_success_bounds h create_ok pool0 W Q hs
  obtain ⟨hI, hsz⟩ := inv_run h acts _ (init_inv h create_ok pool0 W Q hW hQ)
  have hsz0 : (pthread_pool_init h create_ok pool0 W Q).2.pool.q_size = max Q W := by
    rw [init_pool_eq h create_ok pool0 W Q hW hQ]
  rw [hsz0] at hsz
  refine ⟨hI.2.1, hsz, hI.2.2, ?_⟩
  intro hpos
  apply hI.2.2
  rw [hsz]
  rcases hpos with hp | hp
  · exact lt_of_lt_of_le hp (le_max_right Q W)
  · exact lt_of_lt_of_le hp (le_max_left Q W)

/-- Instance of `capacity_invariant`: a pool of capacity two after a schedule that wraps. -/
theorem capacity_invariant_witness :
    (pthread_pool_init hdr (fun _ => true) pool_junk 1 2).1 = .POOL_SUCCESS ∧
    (run hdr (pthread_pool_init hdr (fun _ => true) pool_junk 1 2).2 acts_wrap).pool.q_front <
      (run hdr (pthread_pool_init hdr (fun _ => true) pool_junk 1 2).2 acts_wrap).pool.q_size :=
  ⟨by decide,
    (capacity_invariant hdr (fun _ => true) pool_junk 1 2 acts_wrap (by decide)).2.2.2
      (Or.inl (by decide))⟩


/-! ## Creating the pool -/

theorem create_bees_ok (create_ok : Nat → Bool) (n : Nat) :
    ∀ (i : Nat) (bees : List WorkerPc), (∀ j, j < n → create_ok (i + j) = true) →
      (create_bees create_ok n i bees).1 = .POOL_SUCCESS := by
  induction n with
  | zero => intro i bees _; rfl
  | succ n ih =>
      intro i bees hok
      have h0 : create_ok i = true := by simpa using hok 0 (Nat.succ_pos n)
      simp only [create_bees, h0, if_true]
      apply ih
      intro j hj
      have := hok (j + 1) (by omega)
      rwa [show i + 1 + j = i + (j + 1) by omega]

/-- C3 (capacity floor): for every worker count and requested capacity that
`pthread_pool_init` accepts, the effective capacity `q_size` is the larger of the
two; it is the worker count when the requested capacity is smaller, and it is
never below `bee_size`. -/
theorem capacity_floor (h : Header) (create_ok : Nat → Bool) (pool0 : pthread_pool_t)
    (W Q : Nat) (hW : W ≤ h.POOL_MAXBSIZE) (hQ : Q ≤ h.POOL_MAXQSIZE) :
    (pthread_pool_init h create_ok pool0 W Q).2.pool.q_size = max Q W ∧
    (Q < W → (pthread_pool_init h create_ok pool0 W Q).2.pool.q_size = W) ∧
    (pthread_pool_init h create_ok pool0 W Q).2.pool.bee_size = W ∧
    (pthread_pool_init h create_ok pool0 W Q).2.pool.bee_size ≤
      (pthread_pool_init h create_ok pool0 W Q).2.pool.q_size := by
  rw [init_pool_eq h create_ok pool0 W Q hW hQ]
  refine ⟨rfl, ?_, rfl, le_max_right Q W⟩
  intro hlt
  exact max_eq_right (Nat.le_of_lt hlt)

/-- Instance of `capacity_floor`: three workers, requested capacity two. -/
theorem capacity_floor_witness :
    (3 ≤ hdr.POOL_MAXBSIZE ∧ 2 ≤ hdr.POOL_MAXQSIZE) ∧
    (pthread_pool_init hdr (fun _ => true) pool_junk 3 2).2.pool.q_size = max 2 3 ∧
    ((2 : Nat) < 3 → (pthread_pool_init hdr (fun _ => true) pool_junk 3 2).2.pool.q_size = 3) ∧
    (pthread_pool_init hdr (fun _ => true) pool_junk 3 2).2.pool.bee_size = 3 ∧
    (pthread_pool_init hdr (fun _ => true) pool_junk 3 2).2.pool.bee_size ≤
      (pthread_pool_init hdr (fun _ => true) pool_junk 3 2).2.pool.q_size :=
  ⟨by decide, capacity_floor hdr (fun _ => true) pool_junk 3 2 (by decide) (by decide)⟩

/-- C10 (create validation): `pthread_pool_init` returns `POOL_FAIL` whenever the
worker count exceeds `POOL_MAXBSIZE` or the requested capacity exceeds
`POOL_MAXQSIZE`, and then the pool structure is exactly as it was and no thread
exists; for all other inputs, when every `pthread_create` succeeds, it returns
`POOL_SUCCESS` with the pool in `STANDBY`, `q_front = 0`, `q_len = 0`, and
`bee_size` workers at the top of their loop. -/
theorem create_validation (h : Header) (create_ok : Nat → Bool) (pool0 : pthread_pool_t)
    (W Q : Nat) :
    ((W > h.POOL_MAXBSIZE ∨ Q > h.POOL_MAXQSIZE) →
      (pthread_pool_init h create_ok pool0 W Q).1 = .POOL_FAIL ∧
      (pthread_pool_init h create_ok pool0 W Q).2.pool = pool0 ∧
      (pthread_pool_init h create_ok pool0 W Q).2.bees = []) ∧
    (¬ (W > h.POOL_MAXBSIZE ∨ Q > h.POOL_MAXQSIZE) → (∀ i, i < W → create_ok i = true) →
      (pthread_pool_init h create_ok pool0 W Q).1 = .POOL_SUCCESS ∧
      (pthread_pool_init h create_ok pool0 W Q).2.pool.state = .STANDBY ∧
      (pthread_pool_init h create_ok pool0 W Q).2.pool.q_front = 0 ∧
      (pthread_pool_init h create_ok pool0 W Q).2.pool.q_len = 0) := by
  constructor
  · intro hbad
    simp only [pthread_pool_init, if_pos hbad, and_self]
  · intro hgood hok
    have hW : W ≤ h.POOL_MAXBSIZE := by omega
    have hQ : Q ≤ h.POOL_MAXQSIZE := by omega
    rw [init_pool_eq h create_ok pool0 W Q hW hQ]
    refine ⟨?_, rfl, rfl, rfl⟩
    simp only [pthread_pool_init, if_neg hgood]
    apply create_bees_ok
    intro j hj
    simpa using hok j hj

/-- Instance of `create_validation`: too many workers, and an accepted request. -/
theorem create_validation_witness :
    ((200 > hdr.POOL_MAXBSIZE ∨ 2 > hdr.POOL_MAXQSIZE) ∧
      (pthread_pool_init hdr (fun _ => true) pool_junk 200 2).1 = .POOL_FAIL ∧
      (pthread_pool_init hdr (fun _ => true) pool_junk 200 2).2.pool = pool_junk ∧
      (pthread_pool_init hdr (fun _ => true) pool_junk 200 2).2.bees = []) ∧
    (pthread_pool_init hdr (fun _ => true) pool_junk 2 3).1 = .POOL_SUCCESS ∧
      (pthread_pool_init hdr (fun _ => true) pool_junk 2 3).2.pool.state = .STANDBY ∧
      (pthread_pool_init hdr (fun _ => true) pool_junk 2 3).2.pool.q_front = 0 ∧
      (pthread_pool_init hdr (fun _ => true) pool_junk 2 3).2.pool.q_len = 0 :=
  ⟨⟨by decide, (create_validation hdr (fun _ => true) pool_junk 200 2).1 (by decide)⟩,
    (create_validation hdr (fun _ => true) pool_junk 2 3).2 (by decide) (fun _ _ => rfl)⟩

/-! ## Submit -/

theorem submit_terminal (h : Header) (pool : pthread_pool_t) (f p : Nat) (flag : Int)
    (ht : pool.state = .EXIT ∨ pool.state = .OFF) :
    pthread_pool_submit h pool f p flag = (.returned .POOL_FAIL, pool) := by
  simp only [pthread_pool_submit, if_pos ht]

theorem worker_step_state (pool : pthread_pool_t) (log : List (Option task_t)) (pc : WorkerPc) :
    (worker_step pool log pc).1.state = pool.state := by
  cases pc with
  | at_while => simp only [worker_step]; split <;> rfl
  | at_lock =>
      simp only [worker_step]
      split
      · split <;> rfl
      · rfl
  | in_wait => rfl
  | run_task t => rfl
  | exited => rfl

theorem worker_run_state (fuel : Nat) :
    ∀ (pool : pthread_pool_t) (log : List (Option task_t)) (pc : WorkerPc)
      (r : pthread_pool_t × List (Option task_t)),
      worker_run fuel pool log pc = some r → r.1.state = pool.state := by
  induction fuel with
  | zero =>
      intro pool log pc r hr
      simp only [worker_run] at hr
      split at hr
      · simp only [Option.some.injEq] at hr
        rw [← hr]
      · exact absurd hr (by simp)
  | succ fuel ih =>
      intro pool log pc r hr
      simp only [worker_run] at hr
      split at hr
      · simp only [Option.some.injEq] at hr
        rw [← hr]
      · rw [ih _ _ _ _ hr, worker_step_state]

theorem pthread_join_state (fuel : Nat) (s s1 : System) (i : Nat)
    (hj : pthread_join fuel s i = some s1) : s1.pool.state = s.pool.state := by
  unfold pthread_join at hj
  split at hj
  · simp only [Option.some.injEq] at hj
    rw [← hj]
  · split at hj
    · exact absurd hj (by simp)
    · rename_i r hr
      simp only [Option.some.injEq] at hj
      rw [← hj]
      exact worker_run_state fuel _ _ _ _ hr

theorem join_all_state (fuel : Nat) (n : Nat) :
    ∀ (i : Nat) (s s1 : System), join_all fuel n i s = some s1 →
      s1.pool.state = s.pool.state := by
  induction n with
  | zero =>
      intro i s s1 hj
      simp only [join_all, Option.some.injEq] at hj
      rw [← hj]
  | succ n ih =>
      intro i s s1 hj
      simp only [join_all] at hj
      split at hj
      · exact absurd hj (by simp)
      · rename_i s2 hs2
        rw [ih _ _ _ hj, pthread_join_state fuel s s2 i hs2]

theorem shutdown_success_state (h : Header) (fuel : Nat) (s s1 : System) (how : Int)
    (hsd : pthread_pool_shutdown h fuel s how = some (.POOL_SUCCESS, s1)) :
    s1.pool.state = (if how = h.POOL_DISCARD then .OFF else .EXIT) := by
  unfold pthread_pool_shutdown at hsd
  split at hsd
  · simp at hsd
  · split at hsd
    · exact absurd hsd (by simp)
    · rename_i s2 hs2
      simp only [Option.some.injEq, Prod.mk.injEq, true_and] at hsd
      rw [← hsd, join_all_state fuel _ _ _ _ hs2]
      rfl

/-- C4 (rejection in a terminal state): when the control state is `EXIT` or
`OFF`, `pthread_pool_submit` returns `POOL_FAIL` (hence neither success nor
queue-full, and it does not block) for every task, every flag and every
queue occupancy, and leaves every field of the pool as it was.  Consequently
a submit on the pool left by any `pthread_pool_shutdown` that returned
`POOL_SUCCESS` is rejected in the same way. -/
theorem submit_rejected_when_terminal (h : Header) (pool : pthread_pool_t) (f p : Nat)
    (flag : Int) (ht : pool.state = .EXIT ∨ pool.state = .OFF) :
    pthread_pool_submit h pool f p flag = (.returned .POOL_FAIL, pool) ∧
    (pthread_pool_submit h pool f p flag).1 ≠ .returned .POOL_SUCCESS ∧
    (pthread_pool_submit h pool f p flag).1 ≠ .returned .POOL_FULL ∧
    (pthread_pool_submit h pool f p flag).1 ≠ .blocked ∧
    (∀ (fuel : Nat) (s s1 : System) (how : Int),
      pthread_pool_shutdown h fuel s how = some (.POOL_SUCCESS, s1) →
      pthread_pool_submit h s1.pool f p flag = (.returned .POOL_FAIL, s1.pool)) := by
  have h1 := submit_terminal h pool f p flag ht
  refine ⟨h1, ?_, ?_, ?_, ?_⟩
  · rw [h1]; simp
  · rw [h1]; simp
  · rw [h1]; simp
  · intro fuel s s1 how hsd
    apply submit_terminal
    rw [shutdown_success_state h fuel s s1 how hsd]
    split
    · exact Or.inr rfl
    · exact Or.inl rfl

theorem standby_to_on_fields (pool : pthread_pool_t) :
    (standby_to_on pool).q = pool.q ∧ (standby_to_on pool).q_size = pool.q_size ∧
    (standby_to_on pool).q_front = pool.q_front ∧ (standby_to_on pool).q_len = pool.q_len ∧
    (standby_to_on pool).bee_size = pool.bee_size := by
  unfold standby_to_on
  split <;> exact ⟨rfl, rfl, rfl, rfl, rfl⟩

theorem standby_to_on_accepting (pool : pthread_pool_t)
    (hacc : pool.state = .STANDBY ∨ pool.state = .ON) : (standby_to_on pool).state = .ON := by
  unfold standby_to_on
  rcases hacc with hst | hst
  · simp [hst]
  · simp [hst]

theorem submit_nowait_full (h : Header) (pool : pthread_pool_t) (f p : Nat)
    (hacc : pool.state = .STANDBY ∨ pool.state = .ON) (hfull : pool.q_len = pool.q_size) :
    pthread_pool_submit h pool f p h.POOL_NOWAIT = (.returned .POOL_FULL, standby_to_on pool) := by
  obtain ⟨_, h2, _, h4, _⟩ := standby_to_on_fields pool
  have hna : ¬ (pool.state = .EXIT ∨ pool.state = .OFF) := by
    rcases hacc with hst | hst <;> simp [hst]
  simp only [pthread_pool_submit, if_neg hna, h2, h4, hfull, and_self, if_true]

theorem submit_nowait_room (h : Header) (pool : pthread_pool_t) (f p : Nat)
    (hacc : pool.state = .STANDBY ∨ pool.state = .ON) (hroom : pool.q_len ≠ pool.q_size) :
    pthread_pool_submit h pool f p h.POOL_NOWAIT =
      (.returned .POOL_SUCCESS, enqueue (standby_to_on pool) f p) := by
  obtain ⟨_, h2, _, h4, _⟩ := standby_to_on_fields pool
  have hna : ¬ (pool.state = .EXIT ∨ pool.state = .OFF) := by
    rcases hacc with hst | hst <;> simp [hst]
  have hne : ¬ pool.q_size = pool.q_len := fun hc => hroom hc.symm
  simp only [pthread_pool_submit, if_neg hna, h2, h4, hne, and_false, if_false,
    submit_wait_loop]

theorem submit_not_full_of_flag (h : Header) (pool : pthread_pool_t) (f p : Nat) (flag : Int)
    (hflag : flag ≠ h.POOL_NOWAIT) :
    (pthread_pool_submit h pool f p flag).1 ≠ .returned .POOL_FULL ∧
    (submit_wait_loop pool f p).1 ≠ .returned .POOL_FULL := by
  have hloop : ∀ pl : pthread_pool_t, (submit_wait_loop pl f p).1 ≠ .returned .POOL_FULL := by
    intro pl
    unfold submit_wait_loop
    split
    · split <;> simp
    · simp
  refine ⟨?_, hloop pool⟩
  unfold pthread_pool_submit
  split
  · simp
  · rw [if_neg (fun hc => hflag hc.1)]
    exact hloop _

theorem submit_all_nowait (h : Header) (ts : List task_t) :
    ∀ pool : pthread_pool_t, (pool.state = .STANDBY ∨ pool.state = .ON) →
      pool.q_len + ts.length ≤ pool.q_size →
      (submit_all h h.POOL_NOWAIT pool ts).1 = List.replicate ts.length (.returned .POOL_SUCCESS) ∧
      (submit_all h h.POOL_NOWAIT pool ts).2.q_len = pool.q_len + ts.length ∧
      (submit_all h h.POOL_NOWAIT pool ts).2.q_size = pool.q_size ∧
      ((submit_all h h.POOL_NOWAIT pool ts).2.state = .STANDBY ∨
        (submit_all h h.POOL_NOWAIT pool ts).2.state = .ON) := by
  induction ts with
  | nil => intro pool hacc _; exact ⟨rfl, rfl, rfl, hacc⟩
  | cons t ts ih =>
      intro pool hacc hle
      simp only [List.length_cons] at hle
      have hroom : pool.q_len ≠ pool.q_size := by omega
      obtain ⟨_, h2, _, h4, _⟩ := standby_to_on_fields pool
      have hstep := submit_nowait_room h pool t.function t.param hacc hroom
      have hacc1 : (enqueue (standby_to_on pool) t.function t.param).state = .STANDBY ∨
          (enqueue (standby_to_on pool) t.function t.param).state = .ON :=
        Or.inr (standby_to_on_accepting pool hacc)
      have hlen1 : (enqueue (standby_to_on pool) t.function t.param).q_len = pool.q_len + 1 := by
        simp only [enqueue, h4]
      have hsz1 : (enqueue (standby_to_on pool) t.function t.param).q_size = pool.q_size := by
        simp only [enqueue, h2]
      obtain ⟨i1, i2, i3, i4⟩ := ih (enqueue (standby_to_on pool) t.function t.param) hacc1
        (by rw [hlen1, hsz1]; omega)
      simp only [submit_all, hstep, i1, List.length_cons, List.replicate_succ]
      refine ⟨trivial, ?_, ?_, i4⟩
      · rw [i2, hlen1]; omega
      · rw [i3, hsz1]

/-- C5 (backpressure): on a pool in an accepting state (`STANDBY` or `ON`) a
`POOL_NOWAIT` submit returns `POOL_FULL` exactly when `q_len = q_size`, and then
leaves the slots, `q_front` and `q_len` as they were; otherwise it returns
`POOL_SUCCESS` with the task enqueued and `q_len` increased by one.  Hence from
an empty queue, as many consecutive `POOL_NOWAIT` submits as the capacity all
succeed and one more returns `POOL_FULL`.  On any pool, a submit whose flag is
not `POOL_NOWAIT` (so a `POOL_WAIT` submit) never returns `POOL_FULL`, neither
from the call itself nor after having waited. -/
theorem backpressure (h : Header) (pool : pthread_pool_t) (f p : Nat)
    (hacc : pool.state = .STANDBY ∨ pool.state = .ON) :
    ((pthread_pool_submit h pool f p h.POOL_NOWAIT).1 = .returned .POOL_FULL ↔
      pool.q_len = pool.q_size) ∧
    (pool.q_len = pool.q_size →
      (pthread_pool_submit h pool f p h.POOL_NOWAIT).2.q = pool.q ∧
      (pthread_pool_submit h pool f p h.POOL_NOWAIT).2.q_front = pool.q_front ∧
      (pthread_pool_submit h pool f p h.POOL_NOWAIT).2.q_len = pool.q_len) ∧
    (pool.q_len ≠ pool.q_size →
      (pthread_pool_submit h pool f p h.POOL_NOWAIT).1 = .returned .POOL_SUCCESS ∧
      (pthread_pool_submit h pool f p h.POOL_NOWAIT).2 = enqueue (standby_to_on pool) f p ∧
      (pthread_pool_submit h pool f p h.POOL_NOWAIT).2.q_len = pool.q_len + 1) ∧
    (∀ ts : List task_t, pool.q_len = 0 → ts.length = pool.q_size →
      (submit_all h h.POOL_NOWAIT pool ts).1 =
        List.replicate pool.q_size (.returned .POOL_SUCCESS) ∧
      (pthread_pool_submit h (submit_all h h.POOL_NOWAIT pool ts).2 f p h.POOL_NOWAIT).1 =
        .returned .POOL_FULL) ∧
    (∀ (pool2 : pthread_pool_t) (flag : Int), flag ≠ h.POOL_NOWAIT →
      (pthread_pool_submit h pool2 f p flag).1 ≠ .returned .POOL_FULL ∧
      (submit_wait_loop pool2 f p).1 ≠ .returned .POOL_FULL) := by
  obtain ⟨g1, _, g3, g4, _⟩ := standby_to_on_fields pool
  refine ⟨?_, ?_, ?_, ?_, ?_⟩
  · constructor
    · intro hfull
      by_contra hne
      rw [submit_nowait_room h pool f p hacc hne] at hfull
      simp at hfull
    · intro hfull
      rw [submit_nowait_full h pool f p hacc hfull]
  · intro hfull
    rw [submit_nowait_full h pool f p hacc hfull]
    exact ⟨g1, g3, g4⟩
  · intro hne
    rw [submit_nowait_room h pool f p hacc hne]
    refine ⟨rfl, rfl, ?_⟩
    simp only [enqueue, g4]
  · intro ts h0 hlen
    obtain ⟨i1, i2, i3, i4⟩ := submit_all_nowait h ts pool hacc (by omega)
    refine ⟨by rw [i1, hlen], ?_⟩
    rw [submit_nowait_full h _ f p i4 (by rw [i2, i3]; omega)]
  · intro pool2 flag hflag
    exact submit_not_full_of_flag h pool2 f p flag hflag

/-! ## Workers in a pool that is shutting down -/

theorem worker_run_exited (fuel : Nat) (pool : pthread_pool_t) (log : List (Option task_t)) :
    worker_run fuel pool log .exited = some (pool, log) := by
  cases fuel <;> simp [worker_run]

theorem worker_run_succ (fuel : Nat) (pool : pthread_pool_t) (log : List (Option task_t))
    (pc : WorkerPc) (hpc : pc ≠ .exited) :
    worker_run (fuel + 1) pool log pc =
      worker_run fuel (worker_step pool log pc).1 (worker_step pool log pc).2.1
        (worker_step pool log pc).2.2 := by
  simp only [worker_run, if_neg hpc]

theorem contents_of_len_zero (pool : pthread_pool_t) (h0 : pool.q_len = 0) :
    contents pool = [] := by
  simp [contents, h0]

theorem drain_run (fuel : Nat) :
    ∀ (pool : pthread_pool_t) (log : List (Option task_t)) (pc : WorkerPc),
      Inv pool → pool.state = .EXIT → pc ≠ .in_wait → pc ≠ .exited →
      3 * pool.q_len + weight pc ≤ fuel →
      ∃ pool1, worker_run fuel pool log pc = some (pool1, log ++ pending pc ++ contents pool) ∧
        pool1.q_len = 0 ∧ pool1.state = .EXIT ∧ pool1.q = pool.q ∧
        pool1.q_size = pool.q_size := by
  induction fuel with
  | zero =>
      intro pool log pc _ _ hw he hfuel
      cases pc <;> simp [weight] at hfuel hw he
  | succ fuel ih =>
      intro pool log pc hI hst hw he hfuel
      rw [worker_run_succ fuel pool log pc he]
      cases pc with
      | at_while =>
          have hne : pool.state ≠ .OFF := by rw [hst]; decide
          simp only [worker_step, if_pos hne]
          simp only [weight] at hfuel
          obtain ⟨pool1, hr, hrest⟩ := ih pool log .at_lock hI hst (by decide) (by decide)
            (by simp only [weight]; omega)
          exact ⟨pool1, by simpa [pending] using hr, hrest⟩
      | at_lock =>
          by_cases h0 : pool.q_len = 0
          · simp only [worker_step, if_pos h0, hst, or_true, if_true]
            refine ⟨pool, ?_, h0, hst, rfl, rfl⟩
            rw [worker_run_exited, contents_of_len_zero pool h0]
            simp [pending]
          · simp only [worker_step, if_neg h0]
            have hpos : 0 < pool.q_len := Nat.pos_of_ne_zero h0
            have hlen : (dequeue pool).2.q_len = pool.q_len - 1 := rfl
            simp only [weight] at hfuel
            obtain ⟨pool1, hr, h1, h2, h3, h4⟩ := ih (dequeue pool).2 log
              (.run_task (dequeue pool).1) (inv_dequeue pool hI hpos) hst (by simp) (by simp)
              (by simp only [weight, hlen]; omega)
            refine ⟨pool1, ?_, h1, h2, h3, h4⟩
            rw [hr, contents_dequeue pool hI hpos]
            simp [pending]
      | in_wait => exact absurd rfl hw
      | run_task t =>
          simp only [worker_step]
          simp only [weight] at hfuel
          obtain ⟨pool1, hr, hrest⟩ := ih pool (log ++ [t]) .at_while hI hst (by decide)
            (by decide) (by simp only [weight]; omega)
          exact ⟨pool1, by simpa [pending] using hr, hrest⟩
      | exited => exact absurd rfl he

theorem terminal_run (fuel : Nat) :
    ∀ (pool : pthread_pool_t) (log : List (Option task_t)) (pc : WorkerPc),
      (pool.state = .EXIT ∨ pool.state = .OFF) → pc ≠ .in_wait →
      3 * pool.q_len + weight pc ≤ fuel →
      ∃ r, worker_run fuel pool log pc = some r ∧ r.1.q_len ≤ pool.q_len := by
  induction fuel with
  | zero =>
      intro pool log pc _ hw hfuel
      cases pc with
      | exited => exact ⟨(pool, log), worker_run_exited 0 pool log, le_refl _⟩
      | in_wait => exact absurd rfl hw
      | at_while => simp [weight] at hfuel
      | at_lock => simp [weight] at hfuel
      | run_task t => simp [weight] at hfuel
  | succ fuel ih =>
      intro pool log pc hst hw hfuel
      cases pc with
      | exited => exact ⟨(pool, log), worker_run_exited _ pool log, le_refl _⟩
      | in_wait => exact absurd rfl hw
      | at_while =>
          rw [worker_run_succ fuel pool log _ (by decide)]
          simp only [weight] at hfuel
          simp only [worker_step]
          split
          · exact ih pool log .at_lock hst (by decide) (by simp only [weight]; omega)
          · exact ⟨(pool, log), worker_run_exited _ pool log, le_refl _⟩
      | at_lock =>
          rw [worker_run_succ fuel pool log _ (by decide)]
          simp only [weight] at hfuel
          by_cases h0 : pool.q_len = 0
          · have hst2 : pool.state = .OFF ∨ pool.state = .EXIT := hst.symm
            simp only [worker_step, if_pos h0, if_pos hst2]
            exact ⟨(pool, log), worker_run_exited _ pool log, le_refl _⟩
          · simp only [worker_step, if_neg h0]
            have hlen : (dequeue pool).2.q_len = pool.q_len - 1 := rfl
            obtain ⟨r, hr, hle⟩ := ih (dequeue pool).2 log (.run_task (dequeue pool).1)
              hst (by simp) (by simp only [weight, hlen]; omega)
            exact ⟨r, hr, by rw [hlen] at hle; omega⟩
      | run_task t =>
          rw [worker_run_succ fuel pool log _ (by simp)]
          simp only [weight] at hfuel
          simp only [worker_step]
          exact ih pool (log ++ [t]) .at_while hst (by decide) (by simp only [weight]; omega)

/-- C6 (graceful drain): in state `EXIT`, a worker that runs its loop from the
top on a queue holding `q_len` tasks (the buffer being well formed, `Inv`, as
it is in every reachable state) exits within `3 * q_len + 2` steps, having executed exactly the queued tasks, each once and front first, and
leaves the queue empty; and on no pool does a worker step end in `pthread_exit`
while the state is `EXIT` and `q_len > 0`. -/
theorem graceful_drain (pool : pthread_pool_t) (log : List (Option task_t)) (fuel : Nat)
    (hI : Inv pool) (hst : pool.state = .EXIT) (hfuel : 3 * pool.q_len + 2 ≤ fuel) :
    (∃ pool1, worker_run fuel pool log .at_while = some (pool1, log ++ contents pool) ∧
      pool1.q_len = 0 ∧ pool1.state = .EXIT ∧ pool1.q = pool.q ∧ pool1.q_size = pool.q_size) ∧
    (contents pool).length = pool.q_len ∧
    (∀ (pool2 : pthread_pool_t) (log2 : List (Option task_t)) (pc : WorkerPc),
      pool2.state = .EXIT → 0 < pool2.q_len → pc ≠ .exited →
      (worker_step pool2 log2 pc).2.2 ≠ .exited) := by
  refine ⟨?_, ?_, ?_⟩
  · obtain ⟨pool1, hr, hrest⟩ := drain_run fuel pool log .at_while hI hst (by decide) (by decide)
      (by simpa [weight] using hfuel)
    exact ⟨pool1, by simpa [pending] using hr, hrest⟩
  · simp [contents]
  · intro pool2 log2 pc hst2 hpos hne
    have h0 : pool2.q_len ≠ 0 := by omega
    cases pc with
    | at_while => simp [worker_step, hst2]
    | at_lock => simp [worker_step, h0]
    | in_wait => simp [worker_step]
    | run_task t => simp [worker_step]
    | exited => exact absurd rfl hne

/-- Remark on the boundary of C7: a worker that returns from `pthread_cond_wait`
when the queue is no longer empty re-tests `q_len == 0` only, so whatever the
control state, `OFF` included, it dequeues the front task. -/
theorem woken_worker_nonempty (pool : pthread_pool_t) (log : List (Option task_t))
    (hne : pool.q_len ≠ 0) :
    worker_step pool log (wake .in_wait) = ((dequeue pool).2, log, .run_task (dequeue pool).1) := by
  simp [worker_step, wake, hne]

/-! ## Shutdown -/

theorem pthread_join_returns (fuel : Nat) (s : System) (i : Nat)
    (ht : s.pool.state = .EXIT ∨ s.pool.state = .OFF)
    (hb : ∀ pc ∈ s.bees, pc ≠ .in_wait) (hfuel : 3 * s.pool.q_len + 3 ≤ fuel) :
    ∃ s1, pthread_join fuel s i = some s1 ∧ s1.pool.state = s.pool.state ∧
      (∀ pc ∈ s1.bees, pc ≠ .in_wait) ∧ s1.pool.q_len ≤ s.pool.q_len := by
  unfold pthread_join
  split
  · exact ⟨s, rfl, rfl, hb, le_refl _⟩
  · rename_i pc hpc
    have hmem : pc ∈ s.bees := List.getElem?_mem hpc
    have hwt : weight pc ≤ 3 := by cases pc <;> simp [weight]
    obtain ⟨r, hr, hle⟩ := terminal_run fuel s.pool s.log pc ht (hb pc hmem) (by omega)
    rw [hr]
    refine ⟨_, rfl, worker_run_state fuel _ _ _ _ hr, ?_, hle⟩
    intro pc2 hpc2
    rcases List.mem_or_eq_of_mem_set hpc2 with hm | hm
    · exact hb pc2 hm
    · rw [hm]; decide

theorem join_all_returns (fuel : Nat) (n : Nat) :
    ∀ (i : Nat) (s : System), (s.pool.state = .EXIT ∨ s.pool.state = .OFF) →
      (∀ pc ∈ s.bees, pc ≠ .in_wait) → 3 * s.pool.q_len + 3 ≤ fuel →
      ∃ s1, join_all fuel n i s = some s1 := by
  induction n with
  | zero => intro i s _ _ _; exact ⟨s, rfl⟩
  | succ n ih =>
      intro i s ht hb hfuel
      obtain ⟨s1, hj, hst1, hb1, hle1⟩ := pthread_join_returns fuel s i ht hb hfuel
      simp only [join_all, hj]
      exact ih (i + 1) s1 (by rw [hst1]; exact ht) hb1 (by omega)

theorem shutdown_returns (h : Header) (fuel : Nat) (s : System) (how : Int)
    (hfuel : 3 * s.pool.q_len + 3 ≤ fuel)
    (hmode : ¬ (how ≠ h.POOL_DISCARD ∧ how ≠ h.POOL_COMPLETE)) :
    ∃ s1, pthread_pool_shutdown h fuel s how = some (.POOL_SUCCESS, s1) := by
  have ht : (shutdown_begin h s how).pool.state = .EXIT ∨
      (shutdown_begin h s how).pool.state = .OFF := by
    simp only [shutdown_begin, pthread_pool_update_state]
    split
    · exact Or.inr rfl
    · exact Or.inl rfl
  have hb : ∀ pc ∈ (shutdown_begin h s how).bees, pc ≠ .in_wait := by
    intro pc hpc
    simp only [shutdown_begin, List.mem_map] at hpc
    obtain ⟨pc0, _, rfl⟩ := hpc
    cases pc0 <;> simp [wake]
  obtain ⟨s1, hs1⟩ := join_all_returns fuel s.pool.bee_size 0 (shutdown_begin h s how) ht hb hfuel
  refine ⟨s1, ?_⟩
  simp only [pthread_pool_shutdown, if_neg hmode, hs1]

/-- C9 (shutdown mode handling): with the two modes distinct in the header, and
enough fuel for the joins (three worker steps per queued task and three more),
`pthread_pool_shutdown` returns `POOL_FAIL` and leaves the whole system as it
was for every mode other than `POOL_DISCARD` and `POOL_COMPLETE`; for
`POOL_DISCARD` it sets the state to `OFF`, for `POOL_COMPLETE` to `EXIT`, and in
both cases it returns `POOL_SUCCESS` with that state still in place. -/
theorem shutdown_mode_handling (h : Header) (fuel : Nat) (s : System) (how : Int)
    (hdist : h.POOL_DISCARD ≠ h.POOL_COMPLETE) (hfuel : 3 * s.pool.q_len + 3 ≤ fuel) :
    ((how ≠ h.POOL_DISCARD ∧ how ≠ h.POOL_COMPLETE) →
      pthread_pool_shutdown h fuel s how = some (.POOL_FAIL, s)) ∧
    (how = h.POOL_DISCARD →
      (shutdown_begin h s how).pool = { s.pool with state := .OFF } ∧
      ∃ s1, pthread_pool_shutdown h fuel s how = some (.POOL_SUCCESS, s1) ∧
        s1.pool.state = .OFF) ∧
    (how = h.POOL_COMPLETE →
      (shutdown_begin h s how).pool = { s.pool with state := .EXIT } ∧
      ∃ s1, pthread_pool_shutdown h fuel s how = some (.POOL_SUCCESS, s1) ∧
        s1.pool.state = .EXIT) := by
  refine ⟨?_, ?_, ?_⟩
  · intro hbad
    simp only [pthread_pool_shutdown, if_pos hbad]
  · intro hd
    obtain ⟨s1, hs1⟩ := shutdown_returns h fuel s how hfuel (by simp [hd])
    refine ⟨by simp [shutdown_begin, pthread_pool_update_state, hd], s1, hs1, ?_⟩
    rw [shutdown_success_state h fuel s s1 how hs1, if_pos hd]
  · intro hc
    have hnd : how ≠ h.POOL_DISCARD := by rw [hc]; exact fun e => hdist e.symm
    obtain ⟨s1, hs1⟩ := shutdown_returns h fuel s how hfuel (by simp [hc])
    refine ⟨by simp [shutdown_begin, pthread_pool_update_state, hnd], s1, hs1, ?_⟩
    rw [shutdown_success_state h fuel s s1 how hs1, if_neg hnd]


theorem enqueue_state (pool : pthread_pool_t) (f p : Nat) :
    (enqueue pool f p).state = pool.state := rfl

theorem submit_wait_loop_state (pool : pthread_pool_t) (f p : Nat) :
    (submit_wait_loop pool f p).2.state = pool.state := by
  unfold submit_wait_loop
  split
  · split <;> rfl
  · rfl

theorem submit_step_state (h : Header) (pool : pthread_pool_t) (sb : Submitter)
    (hne : sb.pc ≠ .at_store_on) : (submit_step h pool sb).1.state = pool.state := by
  unfold submit_step
  split
  · split <;> rfl
  · split <;> rfl
  · split <;> rfl
  · rename_i hpc
    exact absurd hpc hne
  · split
    · rfl
    · exact submit_wait_loop_state _ _ _
  · exact submit_wait_loop_state _ _ _
  · rfl
  · rfl

theorem step_at_mutex (h : Header) (pool : pthread_pool_t) (t : task_t) (flag : Int) :
    submit_step h pool ⟨t, flag, .at_mutex⟩ =
      ((if flag = h.POOL_NOWAIT ∧ pool.q_size = pool.q_len then
          ((.returned .POOL_FULL : SubmitResult), pool)
        else submit_wait_loop pool t.function t.param).2,
        ⟨t, flag, pc_of_result
          (if flag = h.POOL_NOWAIT ∧ pool.q_size = pool.q_len then
            ((.returned .POOL_FULL : SubmitResult), pool)
          else submit_wait_loop pool t.function t.param).1⟩) := by
  by_cases hc : flag = h.POOL_NOWAIT ∧ pool.q_size = pool.q_len
  · simp only [submit_step, if_pos hc, pc_of_result]
  · simp only [submit_step, if_neg hc]

theorem step_settled (h : Header) (pool : pthread_pool_t) (t : task_t) (flag : Int)
    (r : SubmitResult) :
    submit_step h pool ⟨t, flag, pc_of_result r⟩ = (pool, ⟨t, flag, pc_of_result r⟩) := by
  cases r <;> rfl

/-- A call of `pthread_pool_submit` whose five steps run with no other thread in
between does what the function `pthread_pool_submit` says. -/
theorem submit_steps_alone (h : Header) (pool : pthread_pool_t) (f p : Nat) (flag : Int) :
    submit_steps h 5 pool ⟨⟨f, p⟩, flag, .at_test_exit⟩ =
      ((pthread_pool_submit h pool f p flag).2,
        ⟨⟨f, p⟩, flag, pc_of_result (pthread_pool_submit h pool f p flag).1⟩) := by
  have e1 : submit_step h pool ⟨⟨f, p⟩, flag, .at_test_exit⟩ =
      if pool.state = .EXIT then (pool, ⟨⟨f, p⟩, flag, .returned .POOL_FAIL⟩)
      else (pool, ⟨⟨f, p⟩, flag, .at_test_off⟩) := rfl
  have e2 : submit_step h pool ⟨⟨f, p⟩, flag, .at_test_off⟩ =
      if pool.state = .OFF then (pool, ⟨⟨f, p⟩, flag, .returned .POOL_FAIL⟩)
      else (pool, ⟨⟨f, p⟩, flag, .at_test_standby⟩) := rfl
  have e3 : submit_step h pool ⟨⟨f, p⟩, flag, .at_test_standby⟩ =
      if pool.state = .STANDBY then (pool, ⟨⟨f, p⟩, flag, .at_store_on⟩)
      else (pool, ⟨⟨f, p⟩, flag, .at_mutex⟩) := rfl
  have e4 : submit_step h pool ⟨⟨f, p⟩, flag, .at_store_on⟩ =
      ({ pool with state := .ON }, ⟨⟨f, p⟩, flag, .at_mutex⟩) := rfl
  have e5 : ∀ pl : pthread_pool_t, submit_step h pl ⟨⟨f, p⟩, flag, .returned .POOL_FAIL⟩ =
      (pl, ⟨⟨f, p⟩, flag, .returned .POOL_FAIL⟩) := fun _ => rfl
  cases hs : pool.state
  · have hsub : pthread_pool_submit h pool f p flag =
        if flag = h.POOL_NOWAIT ∧ pool.q_size = pool.q_len then
          ((.returned .POOL_FULL : SubmitResult), { pool with state := .ON })
        else submit_wait_loop { pool with state := .ON } f p := by
      simp [pthread_pool_submit, standby_to_on, hs]
    simp only [submit_steps, e1, e2, e3, e4, hs, step_at_mutex, hsub, reduceCtorEq, if_false,
      if_true]
  · have hsub : pthread_pool_submit h pool f p flag =
        if flag = h.POOL_NOWAIT ∧ pool.q_size = pool.q_len then
          ((.returned .POOL_FULL : SubmitResult), pool)
        else submit_wait_loop pool f p := by
      simp [pthread_pool_submit, standby_to_on, hs]
    simp only [submit_steps, e1, e2, e3, hs, step_at_mutex, step_settled, hsub, reduceCtorEq,
      if_false]
  · rw [submit_terminal h pool f p flag (Or.inl hs)]
    simp only [submit_steps, e1, e5, hs, if_true, pc_of_result]
  · rw [submit_terminal h pool f p flag (Or.inr hs)]
    simp only [submit_steps, e1, e2, e5, hs, reduceCtorEq, if_false, if_true, pc_of_result]

theorem step_state_of_plain (h : Header) (s : System) (a : Action)
    (ha : ∀ how, a ≠ .shutdown how) (hstore : is_store_on s a = false) :
    (step h s a).pool.state = s.pool.state := by
  cases a with
  | call f p flag => rfl
  | sub i =>
      simp only [step]
      split
      · rfl
      · rename_i sb hsb
        apply submit_step_state
        simp only [is_store_on, hsb, decide_eq_false_iff_not] at hstore
        exact hstore
  | resume i =>
      simp only [step]
      split <;> rfl
  | bee i =>
      simp only [step]
      split
      · rfl
      · exact worker_step_state _ _ _
  | wake i =>
      simp only [step]
      split <;> rfl
  | shutdown how => exact absurd rfl (ha how)

theorem step_shutdown_state (h : Header) (s : System) (how : Int) :
    (step h s (.shutdown how)).pool.state =
      if how = h.POOL_DISCARD then .OFF
      else if how = h.POOL_COMPLETE then .EXIT else s.pool.state := by
  simp only [step]
  by_cases hd : how = h.POOL_DISCARD
  · simp [hd, shutdown_begin, pthread_pool_update_state]
  · by_cases hc : how = h.POOL_COMPLETE
    · simp [hd, hc, shutdown_begin, pthread_pool_update_state]
    · simp [hd, hc]

/-- C8, as the claim states it, fails: once the state change of a
`pthread_pool_shutdown(POOL_COMPLETE)` has put a fresh pool in `EXIT`, the state
change of a `pthread_pool_shutdown(POOL_DISCARD)` (line 202, which does not read
the state) moves it to `OFF`; likewise a pool put in `OFF` is moved to `EXIT` by
the state change of a shutdown with `POOL_COMPLETE`. -/
theorem terminal_state_left_by_shutdown :
    (run hdr sys_boot [.shutdown hdr.POOL_COMPLETE]).pool.state = .EXIT ∧
    (step hdr (run hdr sys_boot [.shutdown hdr.POOL_COMPLETE])
      (.shutdown hdr.POOL_DISCARD)).pool.state = .OFF ∧
    (run hdr sys_boot [.shutdown hdr.POOL_DISCARD]).pool.state = .OFF ∧
    (step hdr (run hdr sys_boot [.shutdown hdr.POOL_DISCARD])
      (.shutdown hdr.POOL_COMPLETE)).pool.state = .EXIT := by
  decide

/-- Remark on the boundary of C8: the store `pool->state = ON` of line 133 is
made without the mutex and without re-reading the state.  In the schedule
`acts_race` a submit reads `STANDBY` at line 132, a shutdown then writes `EXIT`,
and the pending store puts the pool back to `ON`. -/
theorem store_on_after_shutdown :
    (run hdr sys_boot acts_race).pool.state = .EXIT ∧
    is_store_on (run hdr sys_boot acts_race) (.sub 0) = true ∧
    (step hdr (run hdr sys_boot acts_race) (.sub 0)).pool.state = .ON := by
  decide

/-- C8 (terminal states, amended): leaving aside the unlocked store of line 133
of `pthread_pool_submit`, about which nothing is said here, the set of terminal
states is closed though its two members are not: for every other step (a thread
entering a submit, any other step of a submit call, a worker step, a wake-up, a
shutdown state change), if the control state is `EXIT` or `OFF` before the step
it is `EXIT` or `OFF` after it.  Every such step other than a shutdown leaves
the state exactly as it was; a submit reading `EXIT`, respectively `OFF`, in
the test of line 128 returns `POOL_FAIL` with the pool untouched; and a
shutdown step overwrites the state with `OFF` for `POOL_DISCARD`, with `EXIT`
for `POOL_COMPLETE`, and leaves it for any other mode. -/
theorem terminal_states_closed (h : Header) (s : System) (a : Action)
    (ht : s.pool.state = .EXIT ∨ s.pool.state = .OFF) (hstore : is_store_on s a = false) :
    ((step h s a).pool.state = .EXIT ∨ (step h s a).pool.state = .OFF) ∧
    ((∀ how, a ≠ .shutdown how) → (step h s a).pool.state = s.pool.state) ∧
    (∀ (log : List (Option task_t)) (pc : WorkerPc),
      (worker_step s.pool log pc).1.state = s.pool.state) ∧
    (∀ sb : Submitter, sb.pc ≠ .at_store_on →
      (submit_step h s.pool sb).1.state = s.pool.state) ∧
    (∀ sb : Submitter, sb.pc = .at_test_exit → s.pool.state = .EXIT →
      submit_step h s.pool sb = (s.pool, { sb with pc := .returned .POOL_FAIL })) ∧
    (∀ sb : Submitter, sb.pc = .at_test_off → s.pool.state = .OFF →
      submit_step h s.pool sb = (s.pool, { sb with pc := .returned .POOL_FAIL })) ∧
    (∀ how : Int, (step h s (.shutdown how)).pool.state =
      if how = h.POOL_DISCARD then .OFF
      else if how = h.POOL_COMPLETE then .EXIT else s.pool.state) := by
  refine ⟨?_, fun ha => step_state_of_plain h s a ha hstore, ?_, ?_, ?_, ?_,
    step_shutdown_state h s⟩
  · by_cases ha : ∀ how, a ≠ .shutdown how
    · rw [step_state_of_plain h s a ha hstore]
      exact ht
    · simp only [not_forall, not_not] at ha
      obtain ⟨how, rfl⟩ := ha
      rw [step_shutdown_state]
      split
      · exact Or.inr rfl
      · split
        · exact Or.inl rfl
        · exact ht
  · intro log pc
    exact worker_step_state _ _ _
  · intro sb hne
    exact submit_step_state h s.pool sb hne
  · intro sb hpc hst
    simp only [submit_step, hpc, hst, if_true]
  · intro sb hpc hst
    simp only [submit_step, hpc, hst, if_true]

/-- Instance of `terminal_states_closed`: on a pool that is draining, a thread
that has just entered a submit makes the test of line 128. -/
theorem terminal_states_closed_witness :
    (run hdr sys_boot [.shutdown hdr.POOL_COMPLETE, .call 7 7 0] = sys_late_call ∧
      (sys_late_call.pool.state = .EXIT ∨ sys_late_call.pool.state = .OFF) ∧
      is_store_on sys_late_call (.sub 0) = false) ∧
    ((step hdr sys_late_call (.sub 0)).pool.state = .EXIT ∨
      (step hdr sys_late_call (.sub 0)).pool.state = .OFF) :=
  ⟨⟨by decide, by decide, by decide⟩,
    (terminal_states_closed hdr sys_late_call (.sub 0) (by decide) (by decide)).1⟩

/-! ## Instances on concrete pools -/

/-- Instance of `fifo_order`: three tasks through a buffer of capacity two, with wrap-around. -/
theorem fifo_order_witness :
    ((pthread_pool_init hdr (fun _ => true) pool_junk 1 2).1 = .POOL_SUCCESS ∧
      run_ops (pthread_pool_init hdr (fun _ => true) pool_junk 1 2).2.pool ops_wrap =
        some (pool_after_wrap, [some ⟨10, 1⟩, some ⟨20, 2⟩, some ⟨30, 3⟩])) ∧
    [some (⟨10, 1⟩ : task_t), some ⟨20, 2⟩, some ⟨30, 3⟩] =
      ((enqueued ops_wrap).take
        [some (⟨10, 1⟩ : task_t), some ⟨20, 2⟩, some ⟨30, 3⟩].length).map some :=
  ⟨⟨by decide, by decide⟩,
    (fifo_order hdr (fun _ => true) pool_junk 1 2 ops_wrap pool_after_wrap
      [some ⟨10, 1⟩, some ⟨20, 2⟩, some ⟨30, 3⟩] (by decide) (by decide)).2.2.1⟩

/-- Instance of `submit_rejected_when_terminal`: a stopped pool with queued tasks, and the
pool left by a completed shutdown. -/
theorem submit_rejected_when_terminal_witness :
    (pool_off_queued.state = .EXIT ∨ pool_off_queued.state = .OFF) ∧
    pthread_pool_submit hdr pool_off_queued 7 7 hdr.POOL_NOWAIT =
      (.returned .POOL_FAIL, pool_off_queued) ∧
    (pthread_pool_shutdown hdr 3 sys_boot hdr.POOL_COMPLETE = some (.POOL_SUCCESS, sys_drained) ∧
      pthread_pool_submit hdr sys_drained.pool 7 7 hdr.POOL_NOWAIT =
        (.returned .POOL_FAIL, sys_drained.pool)) :=
  ⟨by decide,
    (submit_rejected_when_terminal hdr pool_off_queued 7 7 hdr.POOL_NOWAIT (by decide)).1,
    by decide,
    (submit_rejected_when_terminal hdr pool_off_queued 7 7 hdr.POOL_NOWAIT (by decide)).2.2.2.2
      3 sys_boot sys_drained hdr.POOL_COMPLETE (by decide)⟩

/-- Instance of `backpressure`: two submits fill an empty queue of capacity two, the third
is refused; a submit on a full queue is refused. -/
theorem backpressure_witness :
    (pool_standby_empty.state = .STANDBY ∨ pool_standby_empty.state = .ON) ∧
    ((submit_all hdr hdr.POOL_NOWAIT pool_standby_empty [⟨10, 1⟩, ⟨20, 2⟩]).1 =
        List.replicate pool_standby_empty.q_size (.returned .POOL_SUCCESS) ∧
      (pthread_pool_submit hdr
          (submit_all hdr hdr.POOL_NOWAIT pool_standby_empty [⟨10, 1⟩, ⟨20, 2⟩]).2 30 3
          hdr.POOL_NOWAIT).1 = .returned .POOL_FULL) ∧
    ((pool_on_full.state = .STANDBY ∨ pool_on_full.state = .ON) ∧
      pool_on_full.q_len = pool_on_full.q_size ∧
      (pthread_pool_submit hdr pool_on_full 30 3 hdr.POOL_NOWAIT).1 = .returned .POOL_FULL) :=
  ⟨by decide,
    (backpressure hdr pool_standby_empty 30 3 (by decide)).2.2.2.1 [⟨10, 1⟩, ⟨20, 2⟩]
      (by decide) (by decide),
    by decide, by decide,
    (backpressure hdr pool_on_full 30 3 (by decide)).1.2 (by decide)⟩

/-- Instance of `graceful_drain`: a draining pool with two queued tasks. -/
theorem graceful_drain_witness :
    (Inv pool_exit_queued ∧ pool_exit_queued.state = .EXIT ∧ 3 * pool_exit_queued.q_len + 2 ≤ 8) ∧
    ∃ pool1, worker_run 8 pool_exit_queued [] .at_while =
        some (pool1, [] ++ contents pool_exit_queued) ∧
      pool1.q_len = 0 ∧ pool1.state = .EXIT ∧ pool1.q = pool_exit_queued.q ∧
      pool1.q_size = pool_exit_queued.q_size :=
  ⟨⟨⟨by decide, by decide, by decide⟩, by decide, by decide⟩,
    (graceful_drain pool_exit_queued [] 8 ⟨by decide, by decide, by decide⟩ (by decide)
      (by decide)).1⟩

/-- Instance of `shutdown_mode_handling`: a graceful shutdown of a busy system. -/
theorem shutdown_mode_handling_witness :
    (hdr.POOL_DISCARD ≠ hdr.POOL_COMPLETE ∧ 3 * sys_busy.pool.q_len + 3 ≤ 9) ∧
    (shutdown_begin hdr sys_busy hdr.POOL_COMPLETE).pool = { sys_busy.pool with state := .EXIT } ∧
    ∃ s1, pthread_pool_shutdown hdr 9 sys_busy hdr.POOL_COMPLETE = some (.POOL_SUCCESS, s1) ∧
      s1.pool.state = .EXIT :=
  ⟨⟨by decide, by decide⟩,
    (shutdown_mode_handling hdr 9 sys_busy hdr.POOL_COMPLETE (by decide) (by decide)).2.2 rfl⟩

end PthreadPool
